import Mathlib

/-!
Verification of the resource-provider layer of the multi-environment
web-server demo: the SQLite-backed state/lock store
(SQLiteBackendProvider) and the HTTP-server process supervisor
(RealHttpServerProvider).  Each definition is a shallow embedding of the
corresponding TypeScript function; stateful methods become explicit
state-passing functions, `Date.now()` becomes an explicit time
parameter, and the SQLite tables become association lists keyed by
their primary key.  The file holds the definitions first and the
theorems about them afterwards.
-/

/-! ## Definitions: SQLite backend (state, locks) -/

namespace SQLiteBackend

/-- One row of the `locks` table: holder, acquired_at (ms epoch), ttl (seconds). -/
structure LockRow where
  holder : String
  acquired_at : Int
  ttl : Int
deriving Repr, DecidableEq

/-- The `locks` table: at most one row per stack name (primary key);
modelled as an association list where the head entry for a key shadows
any later one. -/
abbrev LockTable := List (String × LockRow)

/-- Embedding of `SQLiteBackendProvider.checkLock`: SELECT the lock row
for the stack, or none. -/
def checkLock (locks : LockTable) (stackName : String) : Option LockRow :=
  locks.lookup stackName

/-- Embedding of `SQLiteBackendProvider.releaseLock`: DELETE FROM locks
WHERE stack_name = ?. Unconditional; deleting a missing row is a no-op. -/
def releaseLock (locks : LockTable) (stackName : String) : LockTable :=
  locks.filter (fun row => row.fst != stackName)

/-- The Lock Conflict error thrown by `acquireLock`: the message
carries the current holder, the lock age in whole seconds
(Math.floor(lockAge / 1000)) and the ttl. -/
structure LockConflict where
  holder : String
  ageSeconds : Int
  ttl : Int
deriving Repr, DecidableEq

/-- Embedding of `SQLiteBackendProvider.acquireLock`: check the
existing lock; if present and its age is below ttl*1000 ms, throw a
Lock Conflict naming the current holder; otherwise purge the expired
row and INSERT a fresh row with the new holder.  `now` stands for the
`Date.now()` calls. -/
def acquireLock (locks : LockTable) (stackName holder : String) (ttl : Int) (now : Int) :
    Except LockConflict LockTable :=
  match checkLock locks stackName with
  | some existingLock =>
    let lockAge := now - existingLock.acquired_at
    let ttlMs := existingLock.ttl * 1000
    if lockAge < ttlMs then
      .error ⟨existingLock.holder, Int.fdiv lockAge 1000, existingLock.ttl⟩
    else
      .ok ((stackName, ⟨holder, now, ttl⟩) :: releaseLock locks stackName)
  | none => .ok ((stackName, ⟨holder, now, ttl⟩) :: locks)

/-!
The `state` table stores one JSON blob per stack: `saveState` runs the
value through JSON.stringify before the upsert and `getState` runs the
stored text through JSON.parse, returning undefined when the row is
missing or parsing fails.  JSON.stringify/JSON.parse belong to the JS
runtime, not to this repository; they are modelled here as an executable
printer and parser over a JSON value type (numbers restricted to
integers, strings escaped with the two mandatory escapes).
-/

/-- JSON values as stored in the `state` table. -/
inductive Json where
  | null
  | bool (b : Bool)
  | num (n : Int)
  | str (s : String)
  | arr (elems : List Json)
  | obj (fields : List (String × Json))

/-- The decimal digit characters. -/
def digitToChar : Nat → Char
  | 0 => '0'
  | 1 => '1'
  | 2 => '2'
  | 3 => '3'
  | 4 => '4'
  | 5 => '5'
  | 6 => '6'
  | 7 => '7'
  | 8 => '8'
  | _ => '9'

/-- Read one decimal digit character back, if it is one. -/
def charToDigit (c : Char) : Option Nat :=
  if c = '0' then some 0
  else if c = '1' then some 1
  else if c = '2' then some 2
  else if c = '3' then some 3
  else if c = '4' then some 4
  else if c = '5' then some 5
  else if c = '6' then some 6
  else if c = '7' then some 7
  else if c = '8' then some 8
  else if c = '9' then some 9
  else none

/-- Decimal digit characters of a natural number, most significant first. -/
def natToChars (n : Nat) : List Char :=
  if n < 10 then [digitToChar n]
  else natToChars (n / 10) ++ [digitToChar (n % 10)]
decreasing_by
  exact Nat.div_lt_self (by omega) (by omega)

/-- The digit values of a natural number, most significant first. -/
def digitsOfNat (n : Nat) : List Nat :=
  if n < 10 then [n]
  else digitsOfNat (n / 10) ++ [n % 10]
decreasing_by
  exact Nat.div_lt_self (by omega) (by omega)

/-- JSON numeral for an integer. -/
def intToChars (n : Int) : List Char :=
  if n < 0 then '-' :: natToChars n.natAbs else natToChars n.toNat

/-- The longest leading run of decimal digits, with the remainder. -/
def takeDigits : List Char → List Nat × List Char
  | [] => ([], [])
  | c :: rest =>
    match charToDigit c with
    | some d => (d :: (takeDigits rest).fst, (takeDigits rest).snd)
    | none => ([], c :: rest)

/-- Value of a most-significant-first digit list. -/
def valDigits (ds : List Nat) : Nat :=
  ds.foldl (fun a d => 10 * a + d) 0

/-- Parse a JSON integer numeral (optional minus sign, then digits). -/
def parseInt? : List Char → Option (Int × List Char)
  | [] => none
  | c :: rest =>
    if c = '-' then
      match takeDigits rest with
      | ([], _) => none
      | (d :: ds, r) => some (-(valDigits (d :: ds) : Int), r)
    else
      match takeDigits (c :: rest) with
      | ([], _) => none
      | (d :: ds, r) => some ((valDigits (d :: ds) : Int), r)

/-- JSON string escaping of one character (quote and backslash). -/
def escapeChar (c : Char) : List Char :=
  if c = '"' then ['\\', '"']
  else if c = '\\' then ['\\', '\\']
  else [c]

/-- JSON string escaping of a character list. -/
def escapeChars : List Char → List Char
  | [] => []
  | c :: rest => escapeChar c ++ escapeChars rest

/-- JSON string literal for a Lean string. -/
def strToChars (s : String) : List Char :=
  '"' :: (escapeChars s.data ++ ['"'])

/-- Parse a JSON string body up to the closing quote, undoing the two
escapes produced by escapeChar. -/
def parseStringBody : List Char → Option (List Char × List Char)
  | [] => none
  | c :: rest =>
    if c = '"' then some ([], rest)
    else if c = '\\' then
      match rest with
      | [] => none
      | e :: rest2 =>
        if e = '"' ∨ e = '\\' then
          (parseStringBody rest2).map (fun p => (e :: p.fst, p.snd))
        else none
    else (parseStringBody rest).map (fun p => (c :: p.fst, p.snd))

mutual

/-- JSON.stringify of a value, as a character list. -/
def printJson : Json → List Char
  | .null => 'n' :: 'u' :: 'l' :: 'l' :: []
  | .bool true => 't' :: 'r' :: 'u' :: 'e' :: []
  | .bool false => 'f' :: 'a' :: 'l' :: 's' :: 'e' :: []
  | .num n => intToChars n
  | .str s => strToChars s
  | .arr [] => '[' :: ']' :: []
  | .arr (x :: xs) => '[' :: (printJson x ++ printArrTail xs)
  | .obj [] => '\x7b' :: '\x7d' :: []
  | .obj (f :: fs) => '\x7b' :: (printField f ++ printObjTail fs)

/-- Remaining array elements, each preceded by a comma, then the close. -/
def printArrTail : List Json → List Char
  | [] => [']']
  | x :: xs => ',' :: (printJson x ++ printArrTail xs)

/-- One object member: quoted key, colon, value. -/
def printField : String × Json → List Char
  | (k, v) => strToChars k ++ (':' :: printJson v)

/-- Remaining object members, each preceded by a comma, then the close. -/
def printObjTail : List (String × Json) → List Char
  | [] => ['\x7d']
  | f :: fs => ',' :: (printField f ++ printObjTail fs)

end

/-- Consume an expected literal character sequence. -/
def expectChars : List Char → List Char → Option (List Char)
  | [], s => some s
  | _ :: _, [] => none
  | c :: cs, x :: xs => if x = c then expectChars cs xs else none

mutual

/-- Fueled JSON value parser (fuel bounds the nesting depth). -/
def parseValue : Nat → List Char → Option (Json × List Char)
  | 0, _ => none
  | fuel + 1, s =>
    match s with
    | [] => none
    | c :: rest =>
      if c = 'n' then
        (expectChars ('u' :: 'l' :: 'l' :: []) rest).map (fun r => (Json.null, r))
      else if c = 't' then
        (expectChars ('r' :: 'u' :: 'e' :: []) rest).map (fun r => (Json.bool true, r))
      else if c = 'f' then
        (expectChars ('a' :: 'l' :: 's' :: 'e' :: []) rest).map (fun r => (Json.bool false, r))
      else if c = '"' then
        (parseStringBody rest).map (fun p => (Json.str (String.mk p.fst), p.snd))
      else if c = '[' then parseArr fuel rest
      else if c = '\x7b' then parseObj fuel rest
      else (parseInt? (c :: rest)).map (fun p => (Json.num p.fst, p.snd))

/-- Parse the inside of an array after the opening bracket. -/
def parseArr : Nat → List Char → Option (Json × List Char)
  | 0, _ => none
  | fuel + 1, s =>
    match s with
    | [] => none
    | c :: rest =>
      if c = ']' then some (Json.arr [], rest)
      else
        match parseValue fuel (c :: rest) with
        | none => none
        | some (x, r1) =>
          match parseArrTail fuel r1 with
          | none => none
          | some (xs, r2) => some (Json.arr (x :: xs), r2)

/-- Parse the remaining array elements. -/
def parseArrTail : Nat → List Char → Option (List Json × List Char)
  | 0, _ => none
  | fuel + 1, s =>
    match s with
    | [] => none
    | c :: rest =>
      if c = ']' then some ([], rest)
      else if c = ',' then
        match parseValue fuel rest with
        | none => none
        | some (x, r1) =>
          match parseArrTail fuel r1 with
          | none => none
          | some (xs, r2) => some (x :: xs, r2)
      else none

/-- Parse the inside of an object after the opening brace. -/
def parseObj : Nat → List Char → Option (Json × List Char)
  | 0, _ => none
  | fuel + 1, s =>
    match s with
    | [] => none
    | c :: rest =>
      if c = '\x7d' then some (Json.obj [], rest)
      else
        match parseField fuel (c :: rest) with
        | none => none
        | some (f, r1) =>
          match parseObjTail fuel r1 with
          | none => none
          | some (fs, r2) => some (Json.obj (f :: fs), r2)

/-- Parse one object member. -/
def parseField : Nat → List Char → Option ((String × Json) × List Char)
  | 0, _ => none
  | fuel + 1, s =>
    match s with
    | '"' :: rest =>
      match parseStringBody rest with
      | none => none
      | some (k, r1) =>
        match r1 with
        | ':' :: r2 =>
          match parseValue fuel r2 with
          | none => none
          | some (v, r3) => some ((String.mk k, v), r3)
        | _ => none
    | _ => none

/-- Parse the remaining object members. -/
def parseObjTail : Nat → List Char → Option (List (String × Json) × List Char)
  | 0, _ => none
  | fuel + 1, s =>
    match s with
    | [] => none
    | c :: rest =>
      if c = '\x7d' then some ([], rest)
      else if c = ',' then
        match parseField fuel rest with
        | none => none
        | some (f, r1) =>
          match parseObjTail fuel r1 with
          | none => none
          | some (fs, r2) => some (f :: fs, r2)
      else none

end

/-- JSON.stringify at the String level. -/
def stringify (j : Json) : String := String.mk (printJson j)

/-- JSON.parse at the String level: the fuel s.length + 1 dominates any
nesting depth reachable in s, and the whole input must be consumed. -/
def JSONparse (s : String) : Option Json :=
  match parseValue (s.length + 1) s.data with
  | some (j, []) => some j
  | _ => none

/-- One row of the `state` table. -/
structure StateRow where
  state_data : String
  updated_at : Int

/-- The `state` table, keyed by stack name (primary key). -/
abbrev StateTable := List (String × StateRow)

/-- Embedding of `SQLiteBackendProvider.saveState`: JSON.stringify the
value and upsert the row (ON CONFLICT DO UPDATE: last write wins),
refreshing updated_at with Date.now(). -/
def saveState (states : StateTable) (stackName : String) (state : Json) (now : Int) :
    StateTable :=
  (stackName, ⟨stringify state, now⟩) :: states.filter (fun row => row.fst != stackName)

/-- Embedding of `SQLiteBackendProvider.getState`: SELECT the row and
JSON.parse it; a missing row or a parse failure yields undefined. -/
def getState (states : StateTable) (stackName : String) : Option Json :=
  match states.lookup stackName with
  | none => none
  | some row => JSONparse row.state_data

/-- A character list that does not begin with a decimal digit; what
follows a printed numeral inside a JSON document always satisfies this. -/
def noDigitHead : List Char → Prop
  | [] => True
  | c :: _ => charToDigit c = none

end SQLiteBackend

/-! ## Definitions: HTTP-server resource provider (WebServerProvider.ts) -/

namespace WebServerProvider

/-- The outputs object the provider writes onto a node.  `pid` is kept
optional: the short-circuit branch of deployWebServer writes an object
literal without a pid property, and a missing JS property reads as
undefined. -/
structure Outputs where
  url : String
  port : Nat
  status : String
  pid : Option Nat := none
deriving Repr, DecidableEq

/-- Props of a WebServer node as destructured by deployWebServer. -/
structure Props where
  name : String
  port : Nat
  content : String
deriving Repr, DecidableEq

/-- A CloudDOMNode as this provider reads and writes it. -/
structure CloudDOMNode where
  id : String
  constructType : String
  props : Props
  outputs : Option Outputs := none
deriving Repr, DecidableEq

/-- In-memory handle to a spawned child process: its pid (possibly
undefined) and the `killed` flag, which is set only by a kill() call on
the handle, never by the process exiting on its own. -/
structure ChildProcess where
  pid : Option Nat
  killed : Bool
deriving Repr, DecidableEq

/-- Mutable instance state of RealHttpServerProvider together with the
filesystem it writes: the processes and siteDirs maps, and the files
written under sites/(name)/index.html (path mapped to content). -/
structure ProviderState where
  processes : List (String × ChildProcess)
  siteDirs : List (String × String)
  fileSystem : List (String × String)
deriving Repr, DecidableEq

/-- Map.delete on an association list. -/
def eraseKey {α : Type} (m : List (String × α)) (k : String) : List (String × α) :=
  m.filter (fun e => e.fst != k)

/-- Map.set on an association list: the new binding shadows (and here
replaces) any previous binding of the key. -/
def setKey {α : Type} (m : List (String × α)) (k : String) (v : α) : List (String × α) :=
  (k, v) :: eraseKey m k

/-- The shape returned by detectDrift. -/
structure DriftDetectionResult where
  nodeId : String
  hasDrifted : Bool
  expectedState : Option Outputs := none
  actualState : Option Outputs := none
  driftDescription : Option String := none
  timestamp : Int
deriving Repr, DecidableEq

/-- The expression `node.outputs?.port` under JS truthiness as used in
the guards of detectDrift / refreshState / preDeploy: undefined outputs
or port 0 are falsy. -/
def expectedPort (node : CloudDOMNode) : Option Nat :=
  match node.outputs with
  | none => none
  | some o => if o.port = 0 then none else some o.port

/-- Embedding of RealHttpServerProvider.detectDrift.  The liveness probe
checkServerAlive is abstracted as the function `alive` (port to probe
result) and Date.now() as `now`.  The node is returned alongside the
drift report to record that the method only reads it. -/
def detectDrift (alive : Nat → Bool) (now : Int) (node : CloudDOMNode) :
    DriftDetectionResult × CloudDOMNode :=
  if node.constructType ≠ "WebServer" then
    ({ nodeId := node.id, hasDrifted := false, timestamp := now }, node)
  else
    match expectedPort node with
    | none => ({ nodeId := node.id, hasDrifted := false, timestamp := now }, node)
    | some port =>
      let isAlive := alive port
      ({ nodeId := node.id
         hasDrifted := !isAlive
         expectedState := node.outputs
         actualState := if isAlive then node.outputs else none
         driftDescription := if isAlive then none
           else some ("Server not responding on port " ++ toString port)
         timestamp := now }, node)

/-- Embedding of RealHttpServerProvider.refreshState: same probe as
detectDrift, but on failure clears outputs on the node. -/
def refreshState (alive : Nat → Bool) (node : CloudDOMNode) : CloudDOMNode :=
  if node.constructType ≠ "WebServer" then node
  else
    match expectedPort node with
    | none => node
    | some port => if alive port then node else { node with outputs := none }

/-- One event observed by the startup-wait promise inside
deployWebServer, in delivery order. -/
inductive StartupEvent where
  | stdoutData (s : String)
  | stderrData (s : String)
  | errorEvent
  | exitEvent (code : Option Int)
deriving Repr, DecidableEq

/-- Whether the character list `needle` occurs inside `hay`
(String.prototype.includes). -/
def charsContain (hay needle : List Char) : Bool :=
  match hay with
  | [] => needle.isEmpty
  | _ :: tl => needle.isPrefixOf hay || charsContain tl needle

/-- String.prototype.includes on Lean strings. -/
def stringIncludes (s pat : String) : Bool := charsContain s.data pat.data

/-- The readiness test applied to each stdout chunk by deployWebServer. -/
def isReadySignal (output : String) : Bool :=
  stringIncludes output "Hit CTRL-C to stop" || stringIncludes output "Available on"

/-- How the startup-wait promise settles. -/
inductive WaitResult where
  | ready
  | spawnError
  | exitedWith (code : Int)
  | timedOut
deriving Repr, DecidableEq

/-- The startup wait of deployWebServer: events are delivered in order
and the first settling callback wins.  A stdout chunk resolves when it
includes a ready banner; an error event rejects; an exit event rejects
iff its code is non-zero and non-null (a 0 or null code does nothing);
stderr chunks only log.  If the stream ends with no settlement, the
10-second timer fires and rejects with the startup timeout. -/
def startupWait : List StartupEvent → WaitResult
  | [] => .timedOut
  | .stdoutData s :: rest => if isReadySignal s then .ready else startupWait rest
  | .stderrData _ :: rest => startupWait rest
  | .errorEvent :: _ => .spawnError
  | .exitEvent (some c) :: rest => if c ≠ 0 then .exitedWith c else startupWait rest
  | .exitEvent none :: rest => startupWait rest

/-- The environment one deployWebServer spawn observes: the pid of the
spawned handle, the events delivered during the startup wait, and the
per-attempt results of the waitForServer HTTP verification probes. -/
structure SpawnEnv where
  spawnPid : Option Nat
  startupEvents : List StartupEvent
  httpProbe : Nat → Bool

/-- Embedding of waitForServer: up to maxRetries attempts, succeeding
as soon as one probe responds; throws after the last failed attempt. -/
def waitForServer (probe : Nat → Bool) (maxRetries : Nat := 10) : Bool :=
  (List.range maxRetries).any probe

/-- The errors deployWebServer can reject with. -/
inductive DeployError where
  | startupTimeout
  | spawnFailure
  | exitedWith (code : Int)
  | verifyFailed
deriving Repr, DecidableEq

/-- Outcome of one deployWebServer call: the error raised (if any) and
the provider state and node as the call leaves them. -/
structure DeployResult where
  error : Option DeployError
  state : ProviderState
  node : CloudDOMNode
deriving Repr, DecidableEq

/-- The spawn path of deployWebServer (taken when no live handle is
tracked for the node id): write the site content, spawn, run the
startup wait, then the HTTP verification; on success register the
handle and publish outputs including the pid.  The site write happens
before the wait, so it persists even when the wait fails; the handle is
registered only after both waits succeed. -/
def spawnPath (env : SpawnEnv) (st : ProviderState) (node : CloudDOMNode) : DeployResult :=
  let port := node.props.port
  let siteDir := "sites/" ++ node.props.name
  let indexPath := siteDir ++ "/index.html"
  let st1 : ProviderState :=
    { st with
      fileSystem := setKey st.fileSystem indexPath node.props.content
      siteDirs := setKey st.siteDirs node.id siteDir }
  match startupWait env.startupEvents with
  | .ready =>
    if waitForServer env.httpProbe then
      { error := none
        state := { st1 with processes := setKey st1.processes node.id ⟨env.spawnPid, false⟩ }
        node := { node with outputs := some {
          url := "http://localhost:" ++ toString port, port := port,
          status := "running", pid := env.spawnPid } } }
    else
      { error := some .verifyFailed, state := st1, node := node }
  | .spawnError => { error := some .spawnFailure, state := st1, node := node }
  | .exitedWith c => { error := some (.exitedWith c), state := st1, node := node }
  | .timedOut => { error := some .startupTimeout, state := st1, node := node }

/-- Embedding of RealHttpServerProvider.deployWebServer: if a tracked
handle for the node id exists and is not killed, short-circuit without
touching the environment, the state or the filesystem, republishing
outputs (an object literal without a pid property); otherwise drop any
stale handle and take the spawn path. -/
def deployWebServer (env : SpawnEnv) (st : ProviderState) (node : CloudDOMNode) : DeployResult :=
  let port := node.props.port
  match st.processes.lookup node.id with
  | some existingProcess =>
    if !existingProcess.killed then
      { error := none
        state := st
        node := { node with outputs := some {
          url := "http://localhost:" ++ toString port, port := port,
          status := "running", pid := none } } }
    else
      spawnPath env { st with processes := eraseKey st.processes node.id } node
  | none => spawnPath env st node

/-- Embedding of RealHttpServerProvider.materialize: nodes are processed
sequentially; each WebServer node consumes the next spawn environment
(envs k is the environment of the k-th spawn); the first deploy error
aborts the loop and propagates, leaving the remaining nodes untouched. -/
def materializeAux (envs : Nat → SpawnEnv) (k : Nat) (st : ProviderState) :
    List CloudDOMNode → Option DeployError × ProviderState × List CloudDOMNode
  | [] => (none, st, [])
  | node :: rest =>
    if node.constructType = "WebServer" then
      let r := deployWebServer (envs k) st node
      match r.error with
      | some e => (some e, r.state, r.node :: rest)
      | none =>
        let rec2 := materializeAux envs (k + 1) r.state rest
        (rec2.fst, rec2.snd.fst, r.node :: rec2.snd.snd)
    else
      let rec2 := materializeAux envs k st rest
      (rec2.fst, rec2.snd.fst, node :: rec2.snd.snd)

/-- materialize starts the spawn-environment counter at 0. -/
def materialize (envs : Nat → SpawnEnv) (st : ProviderState) (nodes : List CloudDOMNode) :
    Option DeployError × ProviderState × List CloudDOMNode :=
  materializeAux envs 0 st nodes

/-- Process-wide listener counts for the exit, SIGINT and SIGTERM
events (what process.on accumulates). -/
structure ProcessListeners where
  exitListeners : Nat
  sigintListeners : Nat
  sigtermListeners : Nat
deriving Repr, DecidableEq

/-- The per-instance registration flag of RealHttpServerProvider. -/
structure ProviderInstance where
  cleanupRegistered : Bool
deriving Repr, DecidableEq

/-- Embedding of registerCleanupHandlers: guarded by the instance field
cleanupRegistered; when the guard passes it registers one cleanup
listener on each of process exit, SIGINT and SIGTERM. -/
def registerCleanupHandlers (g : ProcessListeners) (p : ProviderInstance) :
    ProcessListeners × ProviderInstance :=
  if p.cleanupRegistered then (g, p)
  else
    ({ exitListeners := g.exitListeners + 1
       sigintListeners := g.sigintListeners + 1
       sigtermListeners := g.sigtermListeners + 1 },
     { cleanupRegistered := true })

/-- Embedding of the constructor: a fresh instance (cleanupRegistered
initialized to false) immediately calls registerCleanupHandlers. -/
def constructProvider (g : ProcessListeners) : ProcessListeners × ProviderInstance :=
  registerCleanupHandlers g { cleanupRegistered := false }

/-- Constructing n provider instances in sequence in one OS process. -/
def constructN : Nat → ProcessListeners → ProcessListeners
  | 0, g => g
  | n + 1, g => constructN n (constructProvider g).fst

end WebServerProvider

/-! ## Definitions: the second provider file (unnamed part_002) -/

namespace Part002

open WebServerProvider

/-- Embedding of the preDeploy staleness sweep of the part_002 provider
(managed kind HttpServer there): for each managed node with a truthy
outputs.port whose probe fails, clear outputs in place; no other node
and nothing in the provider state is touched, and no process is
started. -/
def preDeploy (alive : Nat → Bool) (st : ProviderState) (nodes : List CloudDOMNode) :
    ProviderState × List CloudDOMNode :=
  (st, nodes.map (fun node =>
    if node.constructType = "HttpServer" then
      match expectedPort node with
      | some port => if alive port then node else { node with outputs := none }
      | none => node
    else node))

end Part002

/-! ## Theorems: SQLite backend -/

namespace SQLiteBackend

theorem checkLock_cons_self (locks : LockTable) (s : String) (r : LockRow) :
    checkLock ((s, r) :: locks) s = some r := by
  simp [checkLock, List.lookup]

theorem checkLock_releaseLock (locks : LockTable) (s : String) :
    checkLock (releaseLock locks s) s = none := by
  induction locks with
  | nil => rfl
  | cons hd tl ih =>
    obtain ⟨k, v⟩ := hd
    simp only [checkLock, releaseLock, List.filter] at ih ⊢
    by_cases h : k = s
    · have hf : (k != s) = false := by simp [h]
      rw [hf]
      exact ih
    · have ht : (k != s) = true := by simp [h]
      rw [ht]
      simp only [List.lookup]
      have hs : (s == k) = false := by simp [Ne.symm h]
      rw [hs]
      exact ih

/-- After a successful acquire, the table holds the new row at the key. -/
theorem acquireLock_ok_shape (locks locks1 : LockTable) (stack h1 : String) (ttl t0 : Int)
    (hacq : acquireLock locks stack h1 ttl t0 = .ok locks1) :
    checkLock locks1 stack = some ⟨h1, t0, ttl⟩ := by
  unfold acquireLock at hacq
  cases hchk : checkLock locks stack with
  | none =>
    rw [hchk] at hacq
    simp only [Except.ok.injEq] at hacq
    subst hacq
    exact checkLock_cons_self ..
  | some l =>
    rw [hchk] at hacq
    by_cases hage : t0 - l.acquired_at < l.ttl * 1000
    · simp [hage] at hacq
    · simp only [hage, if_false] at hacq
      simp only [Except.ok.injEq] at hacq
      subst hacq
      exact checkLock_cons_self ..

/-- C1: after a successful acquireLock(stack, h1, ttl) at time t0 whose lock
is not yet expired at time now (now - t0 < ttl*1000), any
acquireLock(stack, h2, ttl2) fails with a Lock Conflict error that names the
current holder h1; and after releaseLock(stack), a subsequent
acquireLock(stack, h2, ttl2) succeeds. -/
theorem C1_acquireLock_mutual_exclusion
    (locks locks1 : LockTable) (stack h1 h2 : String) (ttl ttl2 t0 now : Int)
    (hacq : acquireLock locks stack h1 ttl t0 = .ok locks1)
    (hfresh : now - t0 < ttl * 1000) :
    (∃ e : LockConflict, acquireLock locks1 stack h2 ttl2 now = .error e ∧ e.holder = h1) ∧
    (∃ locks2, acquireLock (releaseLock locks1 stack) stack h2 ttl2 now = .ok locks2) := by
  have hshape := acquireLock_ok_shape locks locks1 stack h1 ttl t0 hacq
  constructor
  · refine ⟨⟨h1, Int.fdiv (now - t0) 1000, ttl⟩, ?_, rfl⟩
    unfold acquireLock
    rw [hshape]
    simp [hfresh]
  · refine ⟨(stack, ⟨h2, now, ttl2⟩) :: releaseLock locks1 stack, ?_⟩
    unfold acquireLock
    rw [checkLock_releaseLock]

/-- Closed instance of C1 at a concrete lock table and times. -/
theorem C1_acquireLock_mutual_exclusion_witness :
    (∃ e : LockConflict,
      acquireLock [("stack-a", ⟨"worker-1", 1000, 5⟩)] "stack-a" "worker-2" 5 2000 = .error e ∧
      e.holder = "worker-1") ∧
    (∃ locks2, acquireLock (releaseLock [("stack-a", ⟨"worker-1", 1000, 5⟩)] "stack-a")
      "stack-a" "worker-2" 5 2000 = .ok locks2) :=
  C1_acquireLock_mutual_exclusion [] [("stack-a", ⟨"worker-1", 1000, 5⟩)] "stack-a" "worker-1"
    "worker-2" 5 5 1000 2000 rfl (by decide)

/-- C5: for ttl at most 0 and any positive elapsed time since a successful
acquireLock(stack, h1, ttl) at t0, a subsequent acquireLock(stack, h2, ttl2)
with a different holder succeeds: the old lock counts as expired, is purged,
and the new row is inserted. -/
theorem C5_nonpositive_ttl_expires
    (locks locks1 : LockTable) (stack h1 h2 : String) (ttl ttl2 t0 elapsed : Int)
    (hacq : acquireLock locks stack h1 ttl t0 = .ok locks1)
    (httl : ttl ≤ 0) (helapsed : 0 < elapsed) (hne : h1 ≠ h2) :
    acquireLock locks1 stack h2 ttl2 (t0 + elapsed)
      = .ok ((stack, ⟨h2, t0 + elapsed, ttl2⟩) :: releaseLock locks1 stack) := by
  have hshape := acquireLock_ok_shape locks locks1 stack h1 ttl t0 hacq
  unfold acquireLock
  rw [hshape]
  have hage : ¬ (t0 + elapsed - t0 < ttl * 1000) := by omega
  simp [hage]
  omega

/-- Closed instance of C5: a ttl-0 lock acquired at 1000 is expired 7ms later. -/
theorem C5_nonpositive_ttl_expires_witness :
    acquireLock [("stack-a", ⟨"worker-1", 1000, 0⟩)] "stack-a" "worker-2" 5 (1000 + 7)
      = .ok (("stack-a", ⟨"worker-2", 1000 + 7, 5⟩)
          :: releaseLock [("stack-a", ⟨"worker-1", 1000, 0⟩)] "stack-a") :=
  C5_nonpositive_ttl_expires [] [("stack-a", ⟨"worker-1", 1000, 0⟩)] "stack-a" "worker-1"
    "worker-2" 0 5 1000 7 rfl (by decide) (by decide) (by decide)

theorem charToDigit_digitToChar (d : Nat) (h : d < 10) :
    charToDigit (digitToChar d) = some d := by
  interval_cases d <;> rfl

theorem natToChars_eq (n : Nat) :
    natToChars n =
      if n < 10 then [digitToChar n] else natToChars (n / 10) ++ [digitToChar (n % 10)] := by
  rw [natToChars]

theorem digitsOfNat_eq (n : Nat) :
    digitsOfNat n = if n < 10 then [n] else digitsOfNat (n / 10) ++ [n % 10] := by
  rw [digitsOfNat]

theorem takeDigits_noDigit (s : List Char) (h : noDigitHead s) : takeDigits s = ([], s) := by
  cases s with
  | nil => rfl
  | cons c rest =>
    have hc : charToDigit c = none := h
    simp [takeDigits, hc]

theorem takeDigits_natToChars (n : Nat) :
    ∀ rest, takeDigits (natToChars n ++ rest)
      = (digitsOfNat n ++ (takeDigits rest).fst, (takeDigits rest).snd) := by
  induction n using Nat.strong_induction_on with
  | _ n ih =>
    intro rest
    by_cases h : n < 10
    · rw [natToChars_eq, digitsOfNat_eq]
      simp only [h, if_true]
      show takeDigits (digitToChar n :: rest) = _
      simp [takeDigits, charToDigit_digitToChar n h]
    · rw [natToChars_eq, digitsOfNat_eq]
      simp only [h, if_false]
      rw [List.append_assoc, List.singleton_append,
        ih (n / 10) (Nat.div_lt_self (by omega) (by omega))]
      have hmod : charToDigit (digitToChar (n % 10)) = some (n % 10) :=
        charToDigit_digitToChar _ (Nat.mod_lt _ (by omega))
      simp [takeDigits, hmod, List.append_assoc]

theorem foldl_digitsOfNat (n : Nat) :
    ∀ acc, (digitsOfNat n).foldl (fun a d => 10 * a + d) acc
      = acc * 10 ^ (digitsOfNat n).length + n := by
  induction n using Nat.strong_induction_on with
  | _ n ih =>
    intro acc
    by_cases h : n < 10
    · rw [digitsOfNat_eq]
      simp only [h, if_true, List.foldl_cons, List.foldl_nil, List.length_singleton, pow_one]
      omega
    · rw [digitsOfNat_eq]
      simp only [h, if_false]
      rw [List.foldl_append, List.length_append,
        ih (n / 10) (Nat.div_lt_self (by omega) (by omega))]
      simp only [List.foldl_cons, List.foldl_nil, List.length_singleton]
      have hmod : 10 * (n / 10) + n % 10 = n := by omega
      calc 10 * ((acc * 10 ^ (digitsOfNat (n / 10)).length + n / 10)) + n % 10
          = acc * 10 ^ (digitsOfNat (n / 10)).length * 10 + (10 * (n / 10) + n % 10) := by ring
        _ = acc * 10 ^ (digitsOfNat (n / 10)).length * 10 + n := by rw [hmod]
        _ = acc * 10 ^ ((digitsOfNat (n / 10)).length + 1) + n := by ring

theorem valDigits_digitsOfNat (n : Nat) : valDigits (digitsOfNat n) = n := by
  have h := foldl_digitsOfNat n 0
  simpa [valDigits] using h

theorem digitsOfNat_ne_nil (n : Nat) : digitsOfNat n ≠ [] := by
  rw [digitsOfNat_eq]
  split <;> simp

theorem natToChars_head (n : Nat) :
    ∃ d cs, d < 10 ∧ natToChars n = digitToChar d :: cs := by
  induction n using Nat.strong_induction_on with
  | _ n ih =>
    by_cases h : n < 10
    · exact ⟨n, [], h, by rw [natToChars_eq]; simp [h]⟩
    · obtain ⟨d, cs, hd, hcs⟩ := ih (n / 10) (Nat.div_lt_self (by omega) (by omega))
      exact ⟨d, cs ++ [digitToChar (n % 10)], hd, by rw [natToChars_eq]; simp [h, hcs]⟩

/-- Parsing a printed integer numeral recovers the integer and leaves the
remainder untouched, provided the remainder does not begin with a digit. -/
theorem parseInt_intToChars (n : Int) (rest : List Char) (hrest : noDigitHead rest) :
    parseInt? (intToChars n ++ rest) = some (n, rest) := by
  have htd : ∀ m : Nat, takeDigits (natToChars m ++ rest) = (digitsOfNat m, rest) := by
    intro m
    rw [takeDigits_natToChars, takeDigits_noDigit rest hrest]
    simp
  by_cases hneg : n < 0
  · rw [intToChars, if_pos hneg]
    show parseInt? ('-' :: (natToChars n.natAbs ++ rest)) = _
    obtain ⟨d, ds, hds⟩ : ∃ d ds, digitsOfNat n.natAbs = d :: ds := by
      cases hd : digitsOfNat n.natAbs with
      | nil => exact absurd hd (digitsOfNat_ne_nil _)
      | cons d ds => exact ⟨d, ds, rfl⟩
    have hval : valDigits (d :: ds) = n.natAbs := by
      rw [← hds, valDigits_digitsOfNat]
    simp only [parseInt?, if_pos rfl, htd n.natAbs, hds]
    rw [hval]
    have hcast : -(n.natAbs : Int) = n := by omega
    simp [hcast]
    rw [Int.abs_eq_natAbs]
    exact hcast
  · rw [intToChars, if_neg hneg]
    obtain ⟨d0, cs, hd0, hcs⟩ := natToChars_head n.toNat
    rw [hcs]
    show parseInt? (digitToChar d0 :: (cs ++ rest)) = _
    have hnotminus : ¬ (digitToChar d0 = '-') := by
      intro hc
      have := charToDigit_digitToChar d0 hd0
      rw [hc] at this
      simp [charToDigit] at this
    obtain ⟨d, ds, hds⟩ : ∃ d ds, digitsOfNat n.toNat = d :: ds := by
      cases hd : digitsOfNat n.toNat with
      | nil => exact absurd hd (digitsOfNat_ne_nil _)
      | cons d ds => exact ⟨d, ds, rfl⟩
    have hval : valDigits (d :: ds) = n.toNat := by
      rw [← hds, valDigits_digitsOfNat]
    have htake : takeDigits (digitToChar d0 :: (cs ++ rest)) = (d :: ds, rest) := by
      have h1 : digitToChar d0 :: (cs ++ rest) = natToChars n.toNat ++ rest := by
        rw [hcs]
        rfl
      rw [h1, htd n.toNat, hds]
    simp only [parseInt?, if_neg hnotminus, htake]
    rw [hval]
    have : (n.toNat : Int) = n := by omega
    rw [this]

/-- Unfolding of parseStringBody on a cons cell. -/
theorem parseStringBody_cons (c : Char) (rest : List Char) :
    parseStringBody (c :: rest) =
      if c = '"' then some ([], rest)
      else if c = '\\' then
        match rest with
        | [] => none
        | e :: rest2 =>
          if e = '"' ∨ e = '\\' then
            (parseStringBody rest2).map (fun p => (e :: p.fst, p.snd))
          else none
      else (parseStringBody rest).map (fun p => (c :: p.fst, p.snd)) := by
  rw [parseStringBody.eq_def]

/-- Parsing an escaped string body up to the closing quote recovers the
original characters and the remainder. -/
theorem parseStringBody_escape (cs : List Char) :
    ∀ rest, parseStringBody (escapeChars cs ++ ('"' :: rest)) = some (cs, rest) := by
  induction cs with
  | nil =>
    intro rest
    show parseStringBody ('"' :: rest) = some ([], rest)
    rw [parseStringBody_cons]
    simp
  | cons c cs ih =>
    intro rest
    by_cases hq : c = '"'
    · subst hq
      have he : escapeChars ('"' :: cs) = '\\' :: ('"' :: escapeChars cs) := by
        simp [escapeChars, escapeChar]
      rw [he]
      show parseStringBody ('\\' :: ('"' :: (escapeChars cs ++ ('"' :: rest))))
        = some ('"' :: cs, rest)
      rw [parseStringBody_cons]
      simp [ih]
    · by_cases hb : c = '\\'
      · subst hb
        have he : escapeChars ('\\' :: cs) = '\\' :: ('\\' :: escapeChars cs) := by
          simp [escapeChars, escapeChar]
        rw [he]
        show parseStringBody ('\\' :: ('\\' :: (escapeChars cs ++ ('"' :: rest))))
          = some ('\\' :: cs, rest)
        rw [parseStringBody_cons]
        simp [ih]
      · have he : escapeChars (c :: cs) = c :: escapeChars cs := by
          simp [escapeChars, escapeChar, hq, hb]
        rw [he]
        show parseStringBody (c :: (escapeChars cs ++ ('"' :: rest))) = some (c :: cs, rest)
        rw [parseStringBody_cons, if_neg hq, if_neg hb, ih]
        rfl

/-- Heads produced by printed integers. -/
theorem intToChars_head (n : Int) :
    ∃ c cs, intToChars n = c :: cs ∧ (c = '-' ∨ ∃ d, d < 10 ∧ c = digitToChar d) := by
  by_cases hneg : n < 0
  · exact ⟨'-', natToChars n.natAbs, by rw [intToChars, if_pos hneg], Or.inl rfl⟩
  · obtain ⟨d, cs, hd, hcs⟩ := natToChars_head n.toNat
    exact ⟨digitToChar d, cs, by rw [intToChars, if_neg hneg, hcs], Or.inr ⟨d, hd, rfl⟩⟩

/-- A minus sign or a digit character is none of the JSON dispatch
literals nor a closing bracket. -/
theorem digit_or_minus_ne (c : Char)
    (h : c = '-' ∨ ∃ d, d < 10 ∧ c = digitToChar d) :
    c ≠ 'n' ∧ c ≠ 't' ∧ c ≠ 'f' ∧ c ≠ '"' ∧ c ≠ '[' ∧ c ≠ '\x7b' ∧ c ≠ ']' := by
  rcases h with rfl | ⟨d, hd, rfl⟩
  · exact ⟨by decide, by decide, by decide, by decide, by decide, by decide, by decide⟩
  · have hcd := charToDigit_digitToChar d hd
    refine ⟨?_, ?_, ?_, ?_, ?_, ?_, ?_⟩ <;>
      (intro hc; rw [hc] at hcd; simp [charToDigit] at hcd)

/-- Every printed JSON value starts with a character other than a
closing bracket. -/
theorem printJson_head_ne_rbracket (j : Json) :
    ∃ c cs, printJson j = c :: cs ∧ c ≠ ']' := by
  cases j with
  | null => exact ⟨'n', _, rfl, by decide⟩
  | bool b =>
    cases b with
    | false => exact ⟨'f', _, rfl, by decide⟩
    | true => exact ⟨'t', _, rfl, by decide⟩
  | num n =>
    obtain ⟨c, cs, hic, hor⟩ := intToChars_head n
    exact ⟨c, cs, hic, (digit_or_minus_ne c hor).2.2.2.2.2.2⟩
  | str s => exact ⟨'"', _, rfl, by decide⟩
  | arr xs =>
    cases xs with
    | nil => exact ⟨'[', _, rfl, by decide⟩
    | cons x xs => exact ⟨'[', _, rfl, by decide⟩
  | obj fs =>
    cases fs with
    | nil => exact ⟨'\x7b', _, rfl, by decide⟩
    | cons f fs => exact ⟨'\x7b', _, rfl, by decide⟩

theorem noDigitHead_printArrTail (xs : List Json) (rest : List Char) :
    noDigitHead (printArrTail xs ++ rest) := by
  cases xs with
  | nil => exact rfl
  | cons x xs => exact rfl

theorem noDigitHead_printObjTail (fs : List (String × Json)) (rest : List Char) :
    noDigitHead (printObjTail fs ++ rest) := by
  cases fs with
  | nil => exact rfl
  | cons f fs => exact rfl

theorem printJson_length_pos (j : Json) : 1 ≤ (printJson j).length := by
  obtain ⟨c, cs, hcs, _⟩ := printJson_head_ne_rbracket j
  rw [hcs]
  simp

theorem printArrTail_length_pos (xs : List Json) : 1 ≤ (printArrTail xs).length := by
  cases xs with
  | nil => simp [printArrTail]
  | cons x xs => simp [printArrTail]

theorem printObjTail_length_pos (fs : List (String × Json)) :
    1 ≤ (printObjTail fs).length := by
  cases fs with
  | nil => simp [printObjTail]
  | cons f fs => simp [printObjTail]

theorem strToChars_length_ge (s : String) : 2 ≤ (strToChars s).length := by
  simp only [strToChars, List.length_cons, List.length_append, List.length_singleton]
  omega

theorem printField_length_eq (k : String) (v : Json) :
    (printField (k, v)).length = (strToChars k).length + 1 + (printJson v).length := by
  show (strToChars k ++ (':' :: printJson v)).length = _
  simp only [List.length_append, List.length_cons]
  omega

/-- Reduction of parseArr on a non-bracket head. -/
theorem parseArr_cons_ne (fuel : Nat) (c : Char) (cs : List Char) (h : c ≠ ']') :
    parseArr (fuel + 1) (c :: cs) =
      match parseValue fuel (c :: cs) with
      | none => none
      | some (x, r1) =>
        match parseArrTail fuel r1 with
        | none => none
        | some (xs, r2) => some (Json.arr (x :: xs), r2) := by
  simp only [parseArr, if_neg h]

/-- Reduction of parseObj on a non-brace head. -/
theorem parseObj_cons_ne (fuel : Nat) (c : Char) (cs : List Char) (h : c ≠ '\x7d') :
    parseObj (fuel + 1) (c :: cs) =
      match parseField fuel (c :: cs) with
      | none => none
      | some (f, r1) =>
        match parseObjTail fuel r1 with
        | none => none
        | some (fs, r2) => some (Json.obj (f :: fs), r2) := by
  simp only [parseObj, if_neg h]

/-- The JSON parser inverts the printer: with fuel exceeding the printed
length, parsing a printed value (or array tail, member, object tail)
consumes exactly the printed characters and returns the original value
together with the remainder, whenever the remainder does not begin with
a digit. -/
theorem parse_print_roundtrip (fuel : Nat) :
    (∀ j rest, (printJson j).length < fuel → noDigitHead rest →
      parseValue fuel (printJson j ++ rest) = some (j, rest)) ∧
    (∀ xs rest, (printArrTail xs).length < fuel → noDigitHead rest →
      parseArrTail fuel (printArrTail xs ++ rest) = some (xs, rest)) ∧
    (∀ kv rest, (printField kv).length < fuel → noDigitHead rest →
      parseField fuel (printField kv ++ rest) = some (kv, rest)) ∧
    (∀ fs rest, (printObjTail fs).length < fuel → noDigitHead rest →
      parseObjTail fuel (printObjTail fs ++ rest) = some (fs, rest)) := by
  induction fuel using Nat.strong_induction_on with
  | _ fuel ih =>
    cases fuel with
    | zero =>
      refine ⟨?_, ?_, ?_, ?_⟩ <;> (intro a rest h hrest; exact absurd h (Nat.not_lt_zero _))
    | succ f =>
      refine ⟨?_, ?_, ?_, ?_⟩
      · intro j rest hlen hrest
        cases j with
        | null => exact rfl
        | bool b =>
          cases b with
          | false => exact rfl
          | true => exact rfl
        | num n =>
          obtain ⟨c, cs, hic, hor⟩ := intToChars_head n
          obtain ⟨h1, h2, h3, h4, h5, h6, _⟩ := digit_or_minus_ne c hor
          show parseValue (f + 1) (intToChars n ++ rest) = some (Json.num n, rest)
          rw [hic]
          show parseValue (f + 1) (c :: (cs ++ rest)) = some (Json.num n, rest)
          have hpi : parseInt? (c :: (cs ++ rest)) = some (n, rest) := by
            have hback : c :: (cs ++ rest) = intToChars n ++ rest := by
              rw [hic]
              rfl
            rw [hback]
            exact parseInt_intToChars n rest hrest
          simp only [parseValue, if_neg h1, if_neg h2, if_neg h3, if_neg h4, if_neg h5,
            if_neg h6, hpi]
          rfl
        | str s =>
          show parseValue (f + 1) ('"' :: ((escapeChars s.data ++ ['"']) ++ rest))
            = some (Json.str s, rest)
          have hsb : parseStringBody ((escapeChars s.data ++ ['"']) ++ rest)
              = some (s.data, rest) := by
            rw [List.append_assoc, List.singleton_append]
            exact parseStringBody_escape s.data rest
          show (parseStringBody ((escapeChars s.data ++ ['"']) ++ rest)).map
              (fun p => (Json.str (String.mk p.fst), p.snd)) = some (Json.str s, rest)
          rw [hsb]
          rfl
        | arr xs =>
          cases xs with
          | nil =>
            show parseArr f (']' :: rest) = some (Json.arr [], rest)
            have hf2 : 2 ≤ f := by
              have hL : (printJson (Json.arr [])).length = 2 := rfl
              omega
            obtain ⟨g, rfl⟩ : ∃ g, f = g + 1 := ⟨f - 1, by omega⟩
            exact rfl
          | cons x xs =>
            show parseArr f ((printJson x ++ printArrTail xs) ++ rest)
              = some (Json.arr (x :: xs), rest)
            have hL : (printJson (Json.arr (x :: xs))).length
                = 1 + ((printJson x).length + (printArrTail xs).length) := by
              show ('[' :: (printJson x ++ printArrTail xs)).length = _
              simp only [List.length_cons, List.length_append]
              omega
            have hpx := printJson_length_pos x
            have hpt := printArrTail_length_pos xs
            have hsum : (printJson x).length + (printArrTail xs).length < f := by omega
            obtain ⟨g, rfl⟩ : ∃ g, f = g + 1 := ⟨f - 1, by omega⟩
            rw [List.append_assoc]
            obtain ⟨c, cs, hcx, hcne⟩ := printJson_head_ne_rbracket x
            rw [hcx, List.cons_append]
            rw [parseArr_cons_ne g c (cs ++ (printArrTail xs ++ rest)) hcne]
            have hvx : parseValue g (c :: (cs ++ (printArrTail xs ++ rest)))
                = some (x, printArrTail xs ++ rest) := by
              have hback : c :: (cs ++ (printArrTail xs ++ rest))
                  = printJson x ++ (printArrTail xs ++ rest) := by
                rw [hcx]
                rfl
              rw [hback]
              exact (ih g (by omega)).1 x _ (by omega) (noDigitHead_printArrTail xs rest)
            have hat : parseArrTail g (printArrTail xs ++ rest) = some (xs, rest) :=
              (ih g (by omega)).2.1 xs rest (by omega) hrest
            simp only [hvx, hat]
        | obj fs =>
          cases fs with
          | nil =>
            show parseObj f ('\x7d' :: rest) = some (Json.obj [], rest)
            have hf2 : 2 ≤ f := by
              have hL : (printJson (Json.obj [])).length = 2 := rfl
              omega
            obtain ⟨g, rfl⟩ : ∃ g, f = g + 1 := ⟨f - 1, by omega⟩
            exact rfl
          | cons f0 fs =>
            obtain ⟨k, v⟩ := f0
            show parseObj f ((printField (k, v) ++ printObjTail fs) ++ rest)
              = some (Json.obj ((k, v) :: fs), rest)
            have hL : (printJson (Json.obj ((k, v) :: fs))).length
                = 1 + ((printField (k, v)).length + (printObjTail fs).length) := by
              show ('\x7b' :: (printField (k, v) ++ printObjTail fs)).length = _
              simp only [List.length_cons, List.length_append]
              omega
            have hpf := printField_length_eq k v
            have hsg := strToChars_length_ge k
            have hpt := printObjTail_length_pos fs
            have hsum : (printField (k, v)).length + (printObjTail fs).length < f := by
              omega
            obtain ⟨g, rfl⟩ : ∃ g, f = g + 1 := ⟨f - 1, by omega⟩
            rw [List.append_assoc]
            have hhead : printField (k, v) ++ (printObjTail fs ++ rest)
                = '"' :: (((escapeChars k.data ++ ['"']) ++ (':' :: printJson v))
                    ++ (printObjTail fs ++ rest)) := rfl
            rw [hhead]
            rw [parseObj_cons_ne g _ _ (by decide : ¬ (('"' : Char) = '\x7d'))]
            have hfld : parseField g ('"' :: (((escapeChars k.data ++ ['"'])
                  ++ (':' :: printJson v)) ++ (printObjTail fs ++ rest)))
                = some ((k, v), printObjTail fs ++ rest) := by
              rw [← hhead]
              exact (ih g (by omega)).2.2.1 (k, v) _ (by omega)
                (noDigitHead_printObjTail fs rest)
            have hot : parseObjTail g (printObjTail fs ++ rest) = some (fs, rest) :=
              (ih g (by omega)).2.2.2 fs rest (by omega) hrest
            simp only [hfld, hot]
      · intro xs rest hlen hrest
        cases xs with
        | nil => exact rfl
        | cons x xs =>
          show parseArrTail (f + 1) (',' :: ((printJson x ++ printArrTail xs) ++ rest))
            = some (x :: xs, rest)
          have hL : (printArrTail (x :: xs)).length
              = 1 + ((printJson x).length + (printArrTail xs).length) := by
            show (',' :: (printJson x ++ printArrTail xs)).length = _
            simp only [List.length_cons, List.length_append]
            omega
          have hpx := printJson_length_pos x
          have hpt := printArrTail_length_pos xs
          have hvx : parseValue f ((printJson x ++ printArrTail xs) ++ rest)
              = some (x, printArrTail xs ++ rest) := by
            rw [List.append_assoc]
            exact (ih f (by omega)).1 x _ (by omega) (noDigitHead_printArrTail xs rest)
          have hat : parseArrTail f (printArrTail xs ++ rest) = some (xs, rest) :=
            (ih f (by omega)).2.1 xs rest (by omega) hrest
          have hred : parseArrTail (f + 1)
              (',' :: ((printJson x ++ printArrTail xs) ++ rest))
              = match parseValue f ((printJson x ++ printArrTail xs) ++ rest) with
                | none => none
                | some (x1, r1) =>
                  match parseArrTail f r1 with
                  | none => none
                  | some (xs1, r2) => some (x1 :: xs1, r2) := rfl
          rw [hred]
          simp only [hvx, hat]
      · intro kv rest hlen hrest
        obtain ⟨k, v⟩ := kv
        show parseField (f + 1) ('"' :: (((escapeChars k.data ++ ['"'])
            ++ (':' :: printJson v)) ++ rest)) = some ((k, v), rest)
        have hsb : parseStringBody (((escapeChars k.data ++ ['"'])
              ++ (':' :: printJson v)) ++ rest)
            = some (k.data, (':' :: printJson v) ++ rest) := by
          rw [List.append_assoc, List.append_assoc, List.singleton_append]
          exact parseStringBody_escape k.data _
        have hpf := printField_length_eq k v
        have hsg := strToChars_length_ge k
        have hv : parseValue f (printJson v ++ rest) = some (v, rest) :=
          (ih f (by omega)).1 v rest (by omega) hrest
        have hred : parseField (f + 1) ('"' :: (((escapeChars k.data ++ ['"'])
              ++ (':' :: printJson v)) ++ rest))
            = match parseStringBody (((escapeChars k.data ++ ['"'])
                ++ (':' :: printJson v)) ++ rest) with
              | none => none
              | some (k1, r1) =>
                match r1 with
                | ':' :: r2 =>
                  match parseValue f r2 with
                  | none => none
                  | some (v1, r3) => some ((String.mk k1, v1), r3)
                | _ => none := rfl
        rw [hred, hsb]
        simp only [List.cons_append, hv]
      · intro fs rest hlen hrest
        cases fs with
        | nil => exact rfl
        | cons f0 fs =>
          obtain ⟨k, v⟩ := f0
          show parseObjTail (f + 1)
              (',' :: ((printField (k, v) ++ printObjTail fs) ++ rest))
            = some ((k, v) :: fs, rest)
          have hL : (printObjTail ((k, v) :: fs)).length
              = 1 + ((printField (k, v)).length + (printObjTail fs).length) := by
            show (',' :: (printField (k, v) ++ printObjTail fs)).length = _
            simp only [List.length_cons, List.length_append]
            omega
          have hpf := printField_length_eq k v
          have hsg := strToChars_length_ge k
          have hpt := printObjTail_length_pos fs
          have hfld : parseField f ((printField (k, v) ++ printObjTail fs) ++ rest)
              = some ((k, v), printObjTail fs ++ rest) := by
            rw [List.append_assoc]
            exact (ih f (by omega)).2.2.1 (k, v) _ (by omega)
              (noDigitHead_printObjTail fs rest)
          have hot : parseObjTail f (printObjTail fs ++ rest) = some (fs, rest) :=
            (ih f (by omega)).2.2.2 fs rest (by omega) hrest
          have hred : parseObjTail (f + 1)
              (',' :: ((printField (k, v) ++ printObjTail fs) ++ rest))
              = match parseField f ((printField (k, v) ++ printObjTail fs) ++ rest) with
                | none => none
                | some (f1, r1) =>
                  match parseObjTail f r1 with
                  | none => none
                  | some (fs1, r2) => some (f1 :: fs1, r2) := rfl
          rw [hred]
          simp only [hfld, hot]

/-- JSON.parse inverts JSON.stringify on every modelled JSON value. -/
theorem JSONparse_stringify (j : Json) : JSONparse (stringify j) = some j := by
  have h := (parse_print_roundtrip ((printJson j).length + 1)).1 j [] (by omega) trivial
  rw [List.append_nil] at h
  show (match parseValue ((printJson j).length + 1) (printJson j) with
    | some (j1, []) => some j1
    | _ => none) = some j
  rw [h]

/-- Tables built by saving only other stacks keep the key absent. -/
theorem lookup_none_of_key_free (other : String) :
    ∀ m : StateTable, (∀ r ∈ m, r.fst ≠ other) → m.lookup other = none := by
  intro m
  induction m with
  | nil => intro h; rfl
  | cons hd tl ih =>
    intro h
    obtain ⟨k1, v1⟩ := hd
    have hk : k1 ≠ other := h (k1, v1) (List.mem_cons_self _ _)
    simp only [List.lookup]
    rw [show (other == k1) = false by simp [Ne.symm hk]]
    exact ih (fun r hr => h r (List.mem_cons_of_mem _ hr))

/-- C2: saveState(stack, state) followed by getState(stack) returns a value
deep-equal to the saved one (round trip through JSON serialization), and
getState on a stack name for which no saveState was ever performed returns
absent. -/
theorem C2_saveState_getState_roundtrip
    (states : StateTable) (stack : String) (state : Json) (now : Int) :
    getState (saveState states stack state now) stack = some state ∧
    ∀ (saves : List (String × Json × Int)) (other : String),
      (∀ e ∈ saves, e.fst ≠ other) →
      getState (saves.foldl (fun acc e => saveState acc e.fst e.snd.fst e.snd.snd) []) other
        = none := by
  constructor
  · have hlk : ((stack, (⟨stringify state, now⟩ : StateRow))
        :: states.filter (fun row => row.fst != stack)).lookup stack
        = some ⟨stringify state, now⟩ := by
      simp [List.lookup]
    show (match ((stack, (⟨stringify state, now⟩ : StateRow))
        :: states.filter (fun row => row.fst != stack)).lookup stack with
      | none => none
      | some row => JSONparse row.state_data) = some state
    rw [hlk]
    exact JSONparse_stringify state
  · intro saves other hother
    have key_free : ∀ (l : List (String × Json × Int)) (acc : StateTable),
        (∀ e ∈ l, e.fst ≠ other) → (∀ r ∈ acc, r.fst ≠ other) →
        ∀ r ∈ l.foldl (fun acc e => saveState acc e.fst e.snd.fst e.snd.snd) acc,
          r.fst ≠ other := by
      intro l
      induction l with
      | nil =>
        intro acc hl hacc r hr
        exact hacc r hr
      | cons e l ih =>
        intro acc hl hacc r hr
        simp only [List.foldl_cons] at hr
        refine ih _ (fun x hx => hl x (List.mem_cons_of_mem _ hx)) ?_ r hr
        intro r2 hr2
        rcases List.mem_cons.mp hr2 with heq | hmem
        · rw [heq]
          exact hl e (List.mem_cons_self _ _)
        · exact hacc r2 (List.mem_of_mem_filter hmem)
    have hlk := lookup_none_of_key_free other _
      (key_free saves [] hother (by intro r hr; simp at hr))
    show (match (saves.foldl
        (fun acc e => saveState acc e.fst e.snd.fst e.snd.snd) []).lookup other with
      | none => none
      | some row => JSONparse row.state_data) = none
    rw [hlk]

/-- Closed instance of C2: a concrete object survives the round trip and a
never-saved stack reads back absent. -/
theorem C2_saveState_getState_roundtrip_witness :
    getState (saveState [] "demo-stack" (Json.obj [("port", Json.num 8080)]) 1000)
      "demo-stack" = some (Json.obj [("port", Json.num 8080)]) ∧
    getState ([("stack-b", Json.null, 5)].foldl
        (fun acc e => saveState acc e.fst e.snd.fst e.snd.snd) ([] : StateTable))
      "demo-stack" = none :=
  ⟨(C2_saveState_getState_roundtrip [] "demo-stack"
      (Json.obj [("port", Json.num 8080)]) 1000).1,
   (C2_saveState_getState_roundtrip [] "demo-stack"
      (Json.obj [("port", Json.num 8080)]) 1000).2
     [("stack-b", Json.null, 5)] "demo-stack" (by decide)⟩

end SQLiteBackend

/-! ## Theorems: HTTP-server resource provider -/

namespace WebServerProvider

theorem lookup_eraseKey {α : Type} (m : List (String × α)) (k : String) :
    (eraseKey m k).lookup k = none := by
  induction m with
  | nil => rfl
  | cons hd tl ih =>
    obtain ⟨k1, v⟩ := hd
    simp only [eraseKey, List.filter] at ih ⊢
    by_cases h : k1 = k
    · have hf : (k1 != k) = false := by simp [h]
      rw [hf]
      exact ih
    · have ht : (k1 != k) = true := by simp [h]
      rw [ht]
      simp only [List.lookup]
      have hs : (k == k1) = false := by simp [Ne.symm h]
      rw [hs]
      exact ih

theorem filter_eraseKey_eq_nil {α : Type} (m : List (String × α)) (k : String) :
    (eraseKey m k).filter (fun e => e.fst == k) = [] := by
  induction m with
  | nil => rfl
  | cons hd tl ih =>
    obtain ⟨k1, v⟩ := hd
    simp only [eraseKey, List.filter] at ih ⊢
    by_cases h : k1 = k
    · have hf : (k1 != k) = false := by simp [h]
      rw [hf]
      exact ih
    · have ht : (k1 != k) = true := by simp [h]
      rw [ht]
      simp only [List.filter]
      have hs : (k1 == k) = false := by simp [h]
      rw [hs]
      exact ih

/-- After a failed startup wait, spawnPath reports the matching error,
keeps the node untouched, and has written only the site content. -/
theorem spawnPath_failure (env : SpawnEnv) (st : ProviderState) (node : CloudDOMNode)
    (hfail : startupWait env.startupEvents ≠ .ready) :
    ∃ e, spawnPath env st node =
      { error := some e
        state := { st with
          fileSystem := setKey st.fileSystem
            (("sites/" ++ node.props.name) ++ "/index.html") node.props.content
          siteDirs := setKey st.siteDirs node.id ("sites/" ++ node.props.name) }
        node := node } := by
  cases hw : startupWait env.startupEvents with
  | ready => exact absurd hw hfail
  | spawnError => exact ⟨.spawnFailure, by simp only [spawnPath, hw]⟩
  | exitedWith c => exact ⟨.exitedWith c, by simp only [spawnPath, hw]⟩
  | timedOut => exact ⟨.startupTimeout, by simp only [spawnPath, hw]⟩

/-- The short-circuit branch of deployWebServer: a tracked, not-killed
handle yields the no-error republish without touching state or env. -/
theorem deployWebServer_short_circuit
    (env : SpawnEnv) (st : ProviderState) (node : CloudDOMNode) (proc : ChildProcess)
    (hlook : st.processes.lookup node.id = some proc) (hkilled : proc.killed = false) :
    deployWebServer env st node =
      { error := none
        state := st
        node := { node with outputs := some {
          url := "http://localhost:" ++ toString node.props.port, port := node.props.port,
          status := "running", pid := none } } } := by
  unfold deployWebServer
  rw [hlook]
  simp [hkilled]

/-- The success path of spawnPath: a ready startup signal followed by a
responding HTTP probe registers the handle and publishes outputs with the
spawn pid. -/
theorem spawnPath_success (env : SpawnEnv) (st : ProviderState) (node : CloudDOMNode)
    (hready : startupWait env.startupEvents = .ready)
    (hverify : waitForServer env.httpProbe = true) :
    spawnPath env st node =
      { error := none
        state := { processes := setKey st.processes node.id ⟨env.spawnPid, false⟩
                   siteDirs := setKey st.siteDirs node.id ("sites/" ++ node.props.name)
                   fileSystem := setKey st.fileSystem
                     (("sites/" ++ node.props.name) ++ "/index.html") node.props.content }
        node := { node with outputs := some {
          url := "http://localhost:" ++ toString node.props.port, port := node.props.port,
          status := "running", pid := env.spawnPid } } } := by
  simp only [spawnPath, hready, hverify, if_true]

/-- C10: whenever the process table maps the node id to a handle whose
killed flag is false, deployWebServer short-circuits on that in-memory flag
alone: for any environment it raises no error, leaves the provider state
(including the filesystem) untouched, performs no probe, and republishes
outputs as url/port/status running with no pid property — so a worker that
exited on its own (killed stays false) is still republished as running. -/
theorem C10_short_circuit_from_killed_flag
    (env : SpawnEnv) (st : ProviderState) (node : CloudDOMNode) (proc : ChildProcess)
    (hlook : st.processes.lookup node.id = some proc) (hkilled : proc.killed = false) :
    deployWebServer env st node =
      { error := none
        state := st
        node := { node with outputs := some {
          url := "http://localhost:" ++ toString node.props.port, port := node.props.port,
          status := "running", pid := none } } } :=
  deployWebServer_short_circuit env st node proc hlook hkilled

/-- Closed instance of C10 on a concrete table holding a live handle. -/
theorem C10_short_circuit_from_killed_flag_witness :
    deployWebServer ⟨none, [], fun _ => false⟩
        ⟨[("web", ⟨some 42, false⟩)], [], []⟩
        ⟨"web", "WebServer", ⟨"dev", 8080, "hello"⟩, none⟩ =
      { error := none
        state := ⟨[("web", ⟨some 42, false⟩)], [], []⟩
        node := ⟨"web", "WebServer", ⟨"dev", 8080, "hello"⟩, some {
          url := "http://localhost:" ++ toString 8080, port := 8080,
          status := "running", pid := none }⟩ } :=
  C10_short_circuit_from_killed_flag ⟨none, [], fun _ => false⟩
    ⟨[("web", ⟨some 42, false⟩)], [], []⟩
    ⟨"web", "WebServer", ⟨"dev", 8080, "hello"⟩, none⟩ ⟨some 42, false⟩ rfl rfl

/-- C3 (amended): with no handle tracked for the node id, a first
successful materialize registers exactly one handle for the id (carrying
the spawn pid) and publishes outputs.pid = spawn pid; a second materialize
with the same node id and unchanged props spawns nothing — the process
table still holds exactly the one handle from the first call — but its
republished outputs carry no pid property, so the second call reports
outputs.pid as absent rather than repeating the first call's pid. -/
theorem C3_no_respawn_but_second_call_drops_pid
    (env1 env2 : SpawnEnv) (st : ProviderState) (node : CloudDOMNode)
    (hkind : node.constructType = "WebServer")
    (hfresh : st.processes.lookup node.id = none)
    (hready : startupWait env1.startupEvents = .ready)
    (hverify : waitForServer env1.httpProbe = true) :
    ∃ st1 node1 node2,
      materialize (fun _ => env1) st [node] = (none, st1, [node1]) ∧
      st1.processes.lookup node.id = some ⟨env1.spawnPid, false⟩ ∧
      (st1.processes.filter (fun e => e.fst == node.id)).length = 1 ∧
      node1.outputs = some {
        url := "http://localhost:" ++ toString node.props.port,
        port := node.props.port, status := "running", pid := env1.spawnPid } ∧
      node1.id = node.id ∧ node1.props = node.props ∧
      materialize (fun _ => env2) st1 [node1] = (none, st1, [node2]) ∧
      node2.outputs = some {
        url := "http://localhost:" ++ toString node.props.port,
        port := node.props.port, status := "running", pid := none } := by
  refine ⟨{ processes := setKey st.processes node.id ⟨env1.spawnPid, false⟩
            siteDirs := setKey st.siteDirs node.id ("sites/" ++ node.props.name)
            fileSystem := setKey st.fileSystem
              (("sites/" ++ node.props.name) ++ "/index.html") node.props.content },
          { node with outputs := some {
              url := "http://localhost:" ++ toString node.props.port, port := node.props.port,
              status := "running", pid := env1.spawnPid } },
          { node with outputs := some {
              url := "http://localhost:" ++ toString node.props.port, port := node.props.port,
              status := "running", pid := none } },
          ?_, ?_, ?_, rfl, rfl, rfl, ?_, rfl⟩
  · have hdep1 : deployWebServer env1 st node =
        { error := none
          state := { processes := setKey st.processes node.id ⟨env1.spawnPid, false⟩
                     siteDirs := setKey st.siteDirs node.id ("sites/" ++ node.props.name)
                     fileSystem := setKey st.fileSystem
                       (("sites/" ++ node.props.name) ++ "/index.html") node.props.content }
          node := { node with outputs := some {
            url := "http://localhost:" ++ toString node.props.port, port := node.props.port,
            status := "running", pid := env1.spawnPid } } } := by
      unfold deployWebServer
      rw [hfresh]
      exact spawnPath_success env1 st node hready hverify
    simp [materialize, materializeAux, hkind, hdep1]
  · simp [setKey, List.lookup]
  · show (((node.id, (⟨env1.spawnPid, false⟩ : ChildProcess))
        :: eraseKey st.processes node.id).filter (fun e => e.fst == node.id)).length = 1
    simp [List.filter_cons, filter_eraseKey_eq_nil]
  · have hdep2 : deployWebServer env2
        { processes := setKey st.processes node.id ⟨env1.spawnPid, false⟩
          siteDirs := setKey st.siteDirs node.id ("sites/" ++ node.props.name)
          fileSystem := setKey st.fileSystem
            (("sites/" ++ node.props.name) ++ "/index.html") node.props.content }
        { node with outputs := some {
            url := "http://localhost:" ++ toString node.props.port, port := node.props.port,
            status := "running", pid := env1.spawnPid } } =
        { error := none
          state := { processes := setKey st.processes node.id ⟨env1.spawnPid, false⟩
                     siteDirs := setKey st.siteDirs node.id ("sites/" ++ node.props.name)
                     fileSystem := setKey st.fileSystem
                       (("sites/" ++ node.props.name) ++ "/index.html") node.props.content }
          node := { node with outputs := some {
            url := "http://localhost:" ++ toString node.props.port, port := node.props.port,
            status := "running", pid := none } } } := by
      exact deployWebServer_short_circuit env2 _ _ ⟨env1.spawnPid, false⟩
        (by simp [setKey, List.lookup]) rfl
    rw [hkind] at hdep2
    simp [materialize, materializeAux, hkind, hdep2]

/-- Closed instance of the amended C3 on a concrete successful deploy. -/
theorem C3_no_respawn_but_second_call_drops_pid_witness :
    ∃ st1 node1 node2,
      materialize
          (fun _ => (⟨some 42, [StartupEvent.stdoutData "Available on"],
            fun _ => true⟩ : SpawnEnv))
          ⟨[], [], []⟩ [⟨"web", "WebServer", ⟨"dev", 8080, "hello"⟩, none⟩]
        = (none, st1, [node1]) ∧
      st1.processes.lookup "web" = some ⟨some 42, false⟩ ∧
      (st1.processes.filter (fun e => e.fst == "web")).length = 1 ∧
      node1.outputs = some {
        url := "http://localhost:" ++ toString 8080, port := 8080,
        status := "running", pid := some 42 } ∧
      node1.id = "web" ∧ node1.props = ⟨"dev", 8080, "hello"⟩ ∧
      materialize (fun _ => (⟨none, [], fun _ => false⟩ : SpawnEnv)) st1 [node1]
        = (none, st1, [node2]) ∧
      node2.outputs = some {
        url := "http://localhost:" ++ toString 8080, port := 8080,
        status := "running", pid := none } :=
  C3_no_respawn_but_second_call_drops_pid
    ⟨some 42, [StartupEvent.stdoutData "Available on"], fun _ => true⟩
    ⟨none, [], fun _ => false⟩ ⟨[], [], []⟩
    ⟨"web", "WebServer", ⟨"dev", 8080, "hello"⟩, none⟩ rfl rfl rfl rfl

/-- Closed instance refuting C3 as stated: a concrete double materialize of
the same node in which the first call publishes outputs.pid = 42 while the
second call's republished outputs carry no pid, so the two calls do not
report the same outputs.pid. -/
theorem C3_counterexample :
    materialize
        (fun _ => ⟨some 42, [StartupEvent.stdoutData "Available on"], fun _ => true⟩)
        ⟨[], [], []⟩ [⟨"web", "WebServer", ⟨"dev", 8080, "hello"⟩, none⟩]
      = (none,
        ⟨[("web", ⟨some 42, false⟩)], [("web", "sites/dev")], [("sites/dev/index.html", "hello")]⟩,
        [⟨"web", "WebServer", ⟨"dev", 8080, "hello"⟩,
          some ⟨"http://localhost:8080", 8080, "running", some 42⟩⟩]) ∧
    materialize (fun _ => ⟨none, [], fun _ => false⟩)
        ⟨[("web", ⟨some 42, false⟩)], [("web", "sites/dev")], [("sites/dev/index.html", "hello")]⟩
        [⟨"web", "WebServer", ⟨"dev", 8080, "hello"⟩,
          some ⟨"http://localhost:8080", 8080, "running", some 42⟩⟩]
      = (none,
        ⟨[("web", ⟨some 42, false⟩)], [("web", "sites/dev")], [("sites/dev/index.html", "hello")]⟩,
        [⟨"web", "WebServer", ⟨"dev", 8080, "hello"⟩,
          some ⟨"http://localhost:8080", 8080, "running", none⟩⟩]) ∧
    (some ⟨"http://localhost:8080", 8080, "running", some 42⟩ : Option Outputs).map Outputs.pid
      ≠ (some ⟨"http://localhost:8080", 8080, "running", none⟩ : Option Outputs).map Outputs.pid := by
  refine ⟨?_, ?_, by decide⟩
  · rfl
  · rfl

/-- C7: on a WebServer node with a truthy recorded outputs.port whose probe
fails, detectDrift reports hasDrifted = true while returning the node
unchanged, a subsequent refreshState clears outputs to undefined, and
detectDrift leaves every node unchanged in every case. -/
theorem C7_detectDrift_read_only_refreshState_clears
    (alive : Nat → Bool) (now : Int) (node : CloudDOMNode) (o : Outputs)
    (hkind : node.constructType = "WebServer")
    (houts : node.outputs = some o) (hport : o.port ≠ 0)
    (hdead : alive o.port = false) :
    (detectDrift alive now node).fst.hasDrifted = true ∧
    (detectDrift alive now node).snd = node ∧
    refreshState alive node = { node with outputs := none } ∧
    (∀ (al : Nat → Bool) (t : Int) (nd : CloudDOMNode), (detectDrift al t nd).snd = nd) := by
  have hep : expectedPort node = some o.port := by
    simp [expectedPort, houts, hport]
  refine ⟨?_, ?_, ?_, ?_⟩
  · simp [detectDrift, hkind, hep, hdead]
  · simp [detectDrift, hkind, hep]
  · simp [refreshState, hkind, hep, hdead]
  · intro al t nd
    unfold detectDrift
    split
    · rfl
    · cases hp : expectedPort nd <;> simp

/-- Closed instance of C7 on a dead 8080 server with recorded outputs. -/
theorem C7_detectDrift_read_only_refreshState_clears_witness :
    ((detectDrift (fun _ => false) 0
        ⟨"web", "WebServer", ⟨"dev", 8080, "hello"⟩,
          some ⟨"http://localhost:8080", 8080, "running", some 42⟩⟩).fst.hasDrifted = true ∧
    (detectDrift (fun _ => false) 0
        ⟨"web", "WebServer", ⟨"dev", 8080, "hello"⟩,
          some ⟨"http://localhost:8080", 8080, "running", some 42⟩⟩).snd =
      ⟨"web", "WebServer", ⟨"dev", 8080, "hello"⟩,
          some ⟨"http://localhost:8080", 8080, "running", some 42⟩⟩ ∧
    refreshState (fun _ => false)
        ⟨"web", "WebServer", ⟨"dev", 8080, "hello"⟩,
          some ⟨"http://localhost:8080", 8080, "running", some 42⟩⟩ =
      { (⟨"web", "WebServer", ⟨"dev", 8080, "hello"⟩,
          some ⟨"http://localhost:8080", 8080, "running", some 42⟩⟩ : CloudDOMNode) with
        outputs := none } ∧
    (∀ (al : Nat → Bool) (t : Int) (nd : CloudDOMNode), (detectDrift al t nd).snd = nd)) :=
  C7_detectDrift_read_only_refreshState_clears (fun _ => false) 0
    ⟨"web", "WebServer", ⟨"dev", 8080, "hello"⟩,
      some ⟨"http://localhost:8080", 8080, "running", some 42⟩⟩
    ⟨"http://localhost:8080", 8080, "running", some 42⟩ rfl rfl (by decide) rfl

/-- C6: when no live handle is tracked for the node id and the startup wait
does not end in readiness (spawn error, hard exit, or the 10-second
timeout), materialize on that WebServer node propagates an error to the
caller, registers no handle for the id in the process table, and leaves the
node — its outputs field in particular — unwritten. -/
theorem C6_startup_failure_propagates
    (env : SpawnEnv) (st : ProviderState) (node : CloudDOMNode)
    (hkind : node.constructType = "WebServer")
    (hnp : st.processes.lookup node.id = none ∨
      ∃ proc, st.processes.lookup node.id = some proc ∧ proc.killed = true)
    (hfail : startupWait env.startupEvents ≠ .ready) :
    ∃ e st1, materialize (fun _ => env) st [node] = (some e, st1, [node]) ∧
      st1.processes.lookup node.id = none := by
  have main : ∃ e st1, deployWebServer env st node =
      { error := some e, state := st1, node := node } ∧
      st1.processes.lookup node.id = none := by
    rcases hnp with hnone | ⟨proc, hsome, hktrue⟩
    · obtain ⟨e, he⟩ := spawnPath_failure env st node hfail
      refine ⟨e, { st with
          fileSystem := setKey st.fileSystem
            (("sites/" ++ node.props.name) ++ "/index.html") node.props.content
          siteDirs := setKey st.siteDirs node.id ("sites/" ++ node.props.name) }, ?_, ?_⟩
      · unfold deployWebServer
        rw [hnone]
        exact he
      · exact hnone
    · obtain ⟨e, he⟩ :=
        spawnPath_failure env { st with processes := eraseKey st.processes node.id } node hfail
      refine ⟨e, { st with
          processes := eraseKey st.processes node.id
          fileSystem := setKey st.fileSystem
            (("sites/" ++ node.props.name) ++ "/index.html") node.props.content
          siteDirs := setKey st.siteDirs node.id ("sites/" ++ node.props.name) }, ?_, ?_⟩
      · unfold deployWebServer
        rw [hsome]
        simp only [hktrue, Bool.not_true, Bool.false_eq_true, if_false]
        exact he
      · exact lookup_eraseKey st.processes node.id
  obtain ⟨e, st1, hdep, hlk⟩ := main
  refine ⟨e, st1, ?_, hlk⟩
  unfold materialize materializeAux
  simp [hkind, hdep]

/-- Closed instance of C6: an empty event stream is a startup timeout. -/
theorem C6_startup_failure_propagates_witness :
    ∃ e st1,
      materialize (fun _ => (⟨none, [], fun _ => false⟩ : SpawnEnv)) ⟨[], [], []⟩
        [⟨"web", "WebServer", ⟨"dev", 8080, "hello"⟩, none⟩] =
        (some e, st1, [⟨"web", "WebServer", ⟨"dev", 8080, "hello"⟩, none⟩]) ∧
      st1.processes.lookup "web" = none :=
  C6_startup_failure_propagates ⟨none, [], fun _ => false⟩ ⟨[], [], []⟩
    ⟨"web", "WebServer", ⟨"dev", 8080, "hello"⟩, none⟩ rfl (Or.inl rfl) (by decide)

/-- The startup wait never rejects with exit code 0: exitedWith is only
produced from a non-zero, non-null exit event. -/
theorem startupWait_ne_exitedWith_zero (events : List StartupEvent) (n : Int)
    (h : startupWait events = .exitedWith n) : n ≠ 0 := by
  induction events with
  | nil => simp [startupWait] at h
  | cons e rest ih =>
    cases e with
    | stdoutData s =>
      by_cases hr : isReadySignal s
      · simp [startupWait, hr] at h
      · simp only [startupWait, hr, Bool.false_eq_true, if_false] at h
        exact ih h
    | stderrData s => exact ih h
    | errorEvent => simp [startupWait] at h
    | exitEvent c =>
      cases c with
      | none => exact ih h
      | some m =>
        by_cases hm : m = 0
        · simp only [startupWait, hm, ne_eq, not_true_eq_false, if_false] at h
          exact ih h
        · simp only [startupWait, hm, ne_eq, not_false_eq_true, if_true,
            WaitResult.exitedWith.injEq] at h
          omega

/-- C9: during the startup wait an exit event with a non-zero non-null code
is a hard failure carrying that code, an exit with code 0 or null merely
lets the wait continue, and the wait settles as an exit rejection at that
event iff the code is non-zero and non-null. -/
theorem C9_exit_rejection_iff_nonzero_nonnull
    (c : Option Int) (rest : List StartupEvent) :
    (startupWait (StartupEvent.exitEvent c :: rest)
        = match c with
          | some n => if n = 0 then startupWait rest else WaitResult.exitedWith n
          | none => startupWait rest) ∧
    ((∃ n : Int, startupWait (StartupEvent.exitEvent c :: rest) = .exitedWith n ∧ c = some n)
      ↔ ∃ n : Int, c = some n ∧ n ≠ 0) := by
  constructor
  · cases c with
    | none => simp [startupWait]
    | some n =>
      by_cases hn : n = 0 <;> simp [startupWait, hn]
  · constructor
    · rintro ⟨n, hw, rfl⟩
      refine ⟨n, rfl, ?_⟩
      by_cases hn : n = 0
      · subst hn
        simp only [startupWait, ne_eq, not_true_eq_false, if_false] at hw
        exact absurd rfl (startupWait_ne_exitedWith_zero rest 0 hw)
      · exact hn
    · rintro ⟨n, rfl, hn⟩
      exact ⟨n, by simp [startupWait, hn], rfl⟩

/-- C4 counterexample: constructing two RealHttpServerProvider instances in
one OS process registers two exit listeners, not one — the per-instance
cleanupRegistered guard does not stop a second construction from stacking
its own handlers. -/
theorem C4_counterexample :
    (constructN 2 ⟨0, 0, 0⟩).exitListeners ≠ 1 := by decide

/-- C4 (amended): the cleanupRegistered guard is per instance, not process
wide: a repeated registerCleanupHandlers call on an already-constructed
instance adds no handlers, but every constructed instance performs its own
registration, so n constructions add n listeners on each of exit, SIGINT
and SIGTERM. -/
theorem C4_per_instance_registration_guard (n : Nat) (g : ProcessListeners) :
    ((constructN n g).exitListeners = g.exitListeners + n ∧
     (constructN n g).sigintListeners = g.sigintListeners + n ∧
     (constructN n g).sigtermListeners = g.sigtermListeners + n) ∧
    (∀ g2 : ProcessListeners,
      registerCleanupHandlers g2 (constructProvider g).snd = (g2, (constructProvider g).snd)) := by
  constructor
  · induction n generalizing g with
    | zero => simp [constructN]
    | succ m ih =>
      have hstep : constructN (m + 1) g
          = constructN m ⟨g.exitListeners + 1, g.sigintListeners + 1, g.sigtermListeners + 1⟩ :=
        rfl
      obtain ⟨h1, h2, h3⟩ := ih ⟨g.exitListeners + 1, g.sigintListeners + 1, g.sigtermListeners + 1⟩
      dsimp only at h1 h2 h3
      rw [hstep]
      exact ⟨by omega, by omega, by omega⟩
  · intro g2
    rfl

end WebServerProvider

/-! ## Theorems: part_002 provider -/

namespace Part002

open WebServerProvider

/-- The per-node action of preDeploy, rephrased with its guard flattened
into one conjunction over the recorded outputs. -/
theorem preDeploy_clear_pointwise (alive : Nat → Bool) (node : CloudDOMNode) :
    (if node.constructType = "HttpServer" then
        match expectedPort node with
        | some port => if alive port then node else { node with outputs := none }
        | none => node
      else node) =
    (match node.outputs with
     | some o =>
       if node.constructType = "HttpServer" ∧ o.port ≠ 0 ∧ alive o.port = false
       then { node with outputs := none } else node
     | none => node) := by
  by_cases hk : node.constructType = "HttpServer"
  · cases ho : node.outputs with
    | none => simp [hk, expectedPort, ho]
    | some o =>
      by_cases hp : o.port = 0
      · simp [hk, expectedPort, ho, hp]
      · by_cases ha : alive o.port
        · simp [hk, expectedPort, ho, hp, ha]
        · simp [hk, expectedPort, ho, hp, ha]
  · cases ho : node.outputs <;> simp [hk, ho]

/-- C8: preDeploy returns the provider state untouched (no process is
started) and rewrites the node list in place, clearing outputs to
undefined on exactly those nodes that are of the managed kind, have a
truthy recorded outputs.port, and fail the liveness probe; every other
node is returned unchanged at its position. -/
theorem C8_preDeploy_staleness_sweep
    (alive : Nat → Bool) (st : ProviderState) (nodes : List CloudDOMNode) :
    (preDeploy alive st nodes).fst = st ∧
    (preDeploy alive st nodes).snd.length = nodes.length ∧
    ∀ i, (preDeploy alive st nodes).snd.get? i =
      (nodes.get? i).map (fun node =>
        match node.outputs with
        | some o =>
          if node.constructType = "HttpServer" ∧ o.port ≠ 0 ∧ alive o.port = false
          then { node with outputs := none } else node
        | none => node) := by
  refine ⟨rfl, by simp [preDeploy], ?_⟩
  intro i
  show (List.map _ nodes).get? i = _
  rw [List.get?_map]
  cases hg : nodes.get? i with
  | none => rfl
  | some node => exact congrArg some (preDeploy_clear_pointwise alive node)

end Part002
